import Mathlib

/-!
Shallow embedding of the Revolut-to-YNAB transaction pipeline
(`src/api.py`), with the properties of its specification settled as
theorems.

Modelling conventions:
* A raw Revolut transaction is a Python dict; the keys the pipeline reads
  become `Option`-valued fields (`none` = key absent), so a `t["k"]`
  lookup that can raise `KeyError` becomes an `Except String` value whose
  error is the missing key.
* `datetime.fromtimestamp(ms / 1000)` is modelled by the epoch-millisecond
  value `ms` itself: Python's true division keeps fractional seconds and
  `fromtimestamp` keeps the full time of day, so the datetime is in
  bijection with `ms` (at millisecond precision).
* The YNAB client is modelled by the data it serves (budget and account
  lists); the single `bulk_create_transactions` call becomes a `CommitCall`
  value in the returned trace.
-/

namespace RevolutToYnab

/-- The `merchant` sub-dictionary of a raw Revolut transaction
(`t_revolut.get("merchant", {}).get("name", None)` reads its `name`). -/
structure RevolutMerchant where
  name : Option String
  deriving Repr, DecidableEq

/-- A raw Revolut transaction: the dict keys read anywhere in `src/api.py`,
each `none` when the key is absent from the dict. -/
structure RevolutTransaction where
  id : Option String
  currency : Option String
  state : Option String
  createdDate : Option Int
  amount : Option Int
  fee : Option Int
  description : Option String
  merchant : Option RevolutMerchant
  deriving Repr, DecidableEq

/-- A YNAB transaction as built by `_convert_revolut_transaction_to_ynab`.
`date` holds the epoch milliseconds of `datetime.fromtimestamp(createdDate / 1000)`. -/
structure YnabTransaction where
  id : String
  import_id : String
  memo : String
  account_id : String
  date : Int
  amount : Int
  cleared : String
  approved : Bool
  deleted : Bool
  payee_name : Option String
  deriving Repr, DecidableEq

/-! ## Filter (`filter_revolut_transactions`) -/

/-- `filtered_types = ["DECLINED", "FAILED", "REVERTED"]` from
`filter_revolut_transactions`. -/
def filtered_types : List String := ["DECLINED", "FAILED", "REVERTED"]

/-- The first filtering lambda, `lambda x: x["currency"] in currency`:
`none` when the `currency` key is absent (Python raises `KeyError`). -/
def currencyTest (currency : List String) (t : RevolutTransaction) : Option Bool :=
  t.currency.map (fun c => currency.contains c)

/-- The second filtering lambda, `lambda x: x["state"] not in filtered_types`:
`none` when the `state` key is absent (Python raises `KeyError`). -/
def stateTest (t : RevolutTransaction) : Option Bool :=
  t.state.map (fun s => !filtered_types.contains s)

/-- `list(filter(p, ts))` where evaluating `p` may raise: `none` as soon as
the predicate is undefined on some element, otherwise the filtered list. -/
def filterOpt (p : RevolutTransaction → Option Bool) :
    List RevolutTransaction → Option (List RevolutTransaction)
  | [] => some []
  | t :: ts =>
    match p t, filterOpt p ts with
    | some b, some rest => some (if b then t :: rest else rest)
    | _, _ => none

/-- `filter_revolut_transactions(transactions, config)`: the currency filter
(over `config["currency"]`) followed by the lifecycle-state filter. -/
def filter_revolut_transactions (transactions : List RevolutTransaction)
    (currency : List String) : Option (List RevolutTransaction) :=
  match filterOpt (currencyTest currency) transactions with
  | none => none
  | some ts => filterOpt stateTest ts

/-- A transaction kept by both filtering rules. -/
def eligible (currency : List String) (t : RevolutTransaction) : Bool :=
  (currencyTest currency t == some true) && (stateTest t == some true)

/-! ### Filter lemmas -/

theorem filterOpt_eq_some (p : RevolutTransaction → Option Bool)
    (ts : List RevolutTransaction) (h : ∀ t ∈ ts, (p t).isSome) :
    filterOpt p ts = some (ts.filter (fun t => p t == some true)) := by
  induction ts with
  | nil => rfl
  | cons t ts ih =>
    obtain ⟨b, hb⟩ := Option.isSome_iff_exists.mp (h t (List.mem_cons_self t ts))
    rw [filterOpt, ih (fun x hx => h x (List.mem_cons_of_mem t hx)), hb]
    cases b <;> simp [List.filter_cons, hb]

theorem filterOpt_some_inv (p : RevolutTransaction → Option Bool)
    (ts out : List RevolutTransaction) (h : filterOpt p ts = some out) :
    (∀ t ∈ ts, (p t).isSome) ∧ out = ts.filter (fun t => p t == some true) := by
  induction ts generalizing out with
  | nil =>
    simp only [filterOpt] at h
    simp [← Option.some_inj.mp h]
  | cons t ts ih =>
    rw [filterOpt] at h
    cases hp : p t with
    | none => rw [hp] at h; exact absurd h (by simp)
    | some b =>
      rw [hp] at h
      cases hr : filterOpt p ts with
      | none => rw [hr] at h; exact absurd h (by simp)
      | some rest =>
        rw [hr] at h
        obtain ⟨hall, hout⟩ := ih rest hr
        refine ⟨?_, ?_⟩
        · intro x hx
          rcases List.mem_cons.mp hx with hx | hx
          · rw [hx, hp]; rfl
          · exact hall x hx
        · cases b <;> simp_all [List.filter_cons, hp]

/-! ## Translator (`_convert_revolut_transaction_to_ynab`) -/

/-- A Python `t[key]` dict lookup: the value when the key is present, a
`KeyError` carrying the key when it is absent. -/
def dictGet {α : Type} (v : Option α) (key : String) : Except String α :=
  match v with
  | some x => Except.ok x
  | none => Except.error key

/-- `_convert_revolut_transaction_to_ynab(t_revolut, account_id)`.  The dict
literal's values are evaluated top to bottom, so the required keys are read
in the order `id`, `description`, `createdDate`, `amount`, `fee`; the first
absent one raises `KeyError` (here: `Except.error` with that key).
`date` is `datetime.fromtimestamp(createdDate / 1000)`, modelled by the
epoch milliseconds; `amount` is `int(amount - fee) * 10` (`int` is the
identity on integers); `payee_name` is
`t_revolut.get("merchant", {}).get("name", None)`. -/
def _convert_revolut_transaction_to_ynab (t_revolut : RevolutTransaction)
    (account_id : String) : Except String YnabTransaction :=
  match dictGet t_revolut.id "id" with
  | Except.error k => Except.error k
  | Except.ok i =>
    match dictGet t_revolut.description "description" with
    | Except.error k => Except.error k
    | Except.ok memo =>
      match dictGet t_revolut.createdDate "createdDate" with
      | Except.error k => Except.error k
      | Except.ok created =>
        match dictGet t_revolut.amount "amount" with
        | Except.error k => Except.error k
        | Except.ok amount =>
          match dictGet t_revolut.fee "fee" with
          | Except.error k => Except.error k
          | Except.ok fee =>
            Except.ok
              { id := i
                import_id := i
                memo := memo
                account_id := account_id
                date := created
                amount := (amount - fee) * 10
                cleared := "uncleared"
                approved := false
                deleted := false
                payee_name := t_revolut.merchant.bind RevolutMerchant.name }

/-! ## Name→id mappings (`get_ynab_budget_id_mapping`,
`get_ynab_account_id_mapping`) -/

/-- A YNAB budget as returned by `BudgetsApi().get_budgets()`. -/
structure YnabBudget where
  name : String
  id : String
  deriving Repr, DecidableEq

/-- A YNAB account as returned by `AccountsApi().get_accounts(budget_id)`. -/
structure YnabAccount where
  name : String
  id : String
  deriving Repr, DecidableEq

/-- One `d[k] = v` assignment on a Python dict modelled as an association
list with at most one entry per key: an existing entry keeps its position
and takes the new value, a new key appends at the end. -/
def dictInsert : List (String × String) → String → String → List (String × String)
  | [], k, v => [(k, v)]
  | p :: rest, k, v => if p.1 = k then (k, v) :: rest else p :: dictInsert rest k v

/-- A Python dict comprehension over a list of key-value pairs: later pairs
with an equal key overwrite the value of earlier ones. -/
def dictOfPairs (l : List (String × String)) : List (String × String) :=
  l.foldl (fun m p => dictInsert m p.1 p.2) []

/-- `m[k]` / `k in m` on the dict model: `some` value iff the key is present. -/
def lookupDict (m : List (String × String)) (k : String) : Option String :=
  (m.find? (fun p => p.1 = k)).map (fun p => p.2)

/-- `get_ynab_budget_id_mapping`: `{budget.name: budget.id for budget in response}`. -/
def get_ynab_budget_id_mapping (budgets : List YnabBudget) : List (String × String) :=
  dictOfPairs (budgets.map (fun b => (b.name, b.id)))

/-- `get_ynab_account_id_mapping`: `{account.name: account.id for account in response}`. -/
def get_ynab_account_id_mapping (accounts : List YnabAccount) : List (String × String) :=
  dictOfPairs (accounts.map (fun a => (a.name, a.id)))

/-! ## Upload pipeline (`upload_revolut_transactions_to_ynab`) -/

/-- The data the YNAB API serves during one run: the budget list and, for
each budget id, the account list. -/
structure YnabEnv where
  budgets : List YnabBudget
  accounts : String → List YnabAccount

/-- `"'" + "', '".join(names) + "'"` from the two not-found branches. -/
def names_str (names : List String) : String :=
  "'" ++ String.intercalate "', '" names ++ "'"

/-- The exceptions `upload_revolut_transactions_to_ynab` can raise, each
with the message the code builds (`KeyError` escapes from the conversion
lambda inside `map`). -/
inductive UploadError where
  | BudgetNotFoundError (msg : String)
  | AccountNotFoundError (msg : String)
  | KeyError (key : String)
  deriving Repr, DecidableEq

/-- One `TransactionsApi().bulk_create_transactions(budget_id, transactions)`
call. -/
structure CommitCall where
  budget_id : String
  transactions : List YnabTransaction
  deriving Repr, DecidableEq

/-- `upload_revolut_transactions_to_ynab(transactions_revolut, budget_name,
ynab_current_account_name, ...)`, returning the bulk-commit calls performed
and the exception raised, if any.  The code resolves the budget name, then
the account name, then translates every transaction, and only then makes
its single bulk-commit call; an exception aborts with no commit made. -/
def upload_revolut_transactions_to_ynab (env : YnabEnv)
    (transactions_revolut : List RevolutTransaction)
    (budget_name ynab_current_account_name : String) :
    List CommitCall × Option UploadError :=
  let ynab_budget_id_map := get_ynab_budget_id_mapping env.budgets
  match lookupDict ynab_budget_id_map budget_name with
  | none =>
    ([], some (UploadError.BudgetNotFoundError
      ("Budget named '" ++ budget_name ++ "' not found, available ones: " ++
        names_str (ynab_budget_id_map.map (fun p => p.1)))))
  | some budget_id =>
    let ynab_account_id_map := get_ynab_account_id_mapping (env.accounts budget_id)
    match lookupDict ynab_account_id_map ynab_current_account_name with
    | none =>
      ([], some (UploadError.AccountNotFoundError
        ("YNAB account named '" ++ ynab_current_account_name ++
          "' not found, available ones: " ++
          names_str (ynab_account_id_map.map (fun p => p.1)))))
    | some account_id =>
      match transactions_revolut.mapM
        (fun t => _convert_revolut_transaction_to_ynab t account_id) with
      | Except.error k => ([], some (UploadError.KeyError k))
      | Except.ok transactions_ynab =>
        ([{ budget_id := budget_id, transactions := transactions_ynab }], none)

/-! ## Dict-model lemmas -/

theorem lookupDict_cons (p : String × String) (l : List (String × String)) (k : String) :
    lookupDict (p :: l) k = if p.1 = k then some p.2 else lookupDict l k := by
  by_cases h : p.1 = k
  · simp [lookupDict, List.find?_cons_of_pos, h]
  · simp [lookupDict, List.find?_cons_of_neg, h]

theorem lookupDict_dictInsert_self (m : List (String × String)) (k v : String) :
    lookupDict (dictInsert m k v) k = some v := by
  induction m with
  | nil => simp [dictInsert, lookupDict_cons]
  | cons p rest ih =>
    by_cases h : p.1 = k
    · simp [dictInsert, h, lookupDict_cons]
    · simp [dictInsert, h, lookupDict_cons, ih]

theorem lookupDict_dictInsert_ne (m : List (String × String)) (k v q : String)
    (h : q ≠ k) : lookupDict (dictInsert m k v) q = lookupDict m q := by
  induction m with
  | nil => simp [dictInsert, lookupDict_cons, Ne.symm h]
  | cons p rest ih =>
    by_cases hp : p.1 = k
    · have hpq : p.1 ≠ q := by rw [hp]; exact Ne.symm h
      simp [dictInsert, hp, lookupDict_cons, Ne.symm h, hpq]
    · simp [dictInsert, hp, lookupDict_cons, ih]

theorem dictOfPairs_concat (l : List (String × String)) (q : String × String) :
    dictOfPairs (l ++ [q]) = dictInsert (dictOfPairs l) q.1 q.2 := by
  simp [dictOfPairs, List.foldl_append]

/-- Lookup in a dict built from a pair list finds the value of the LAST pair
carrying the key: later assignments overwrite earlier ones. -/
theorem lookupDict_dictOfPairs (l : List (String × String)) (k : String) :
    lookupDict (dictOfPairs l) k =
      (l.reverse.find? (fun p => p.1 = k)).map (fun p => p.2) := by
  induction l using List.reverseRecOn with
  | nil => rfl
  | append_singleton l q ih =>
    rw [dictOfPairs_concat, List.reverse_append]
    by_cases h : q.1 = k
    · subst h
      simp [lookupDict_dictInsert_self, List.find?_cons_of_pos]
    · rw [lookupDict_dictInsert_ne _ _ _ _ (fun he => h he.symm)]
      simp [List.find?_cons_of_neg, h, ih]

/-! ## Converter lemmas -/

theorem convert_ok_fields (t : RevolutTransaction) (a i d : String) (cd amt fe : Int)
    (hi : t.id = some i) (hd : t.description = some d) (hc : t.createdDate = some cd)
    (ha : t.amount = some amt) (hf : t.fee = some fe) :
    _convert_revolut_transaction_to_ynab t a = Except.ok
      { id := i, import_id := i, memo := d, account_id := a, date := cd,
        amount := (amt - fe) * 10, cleared := "uncleared", approved := false,
        deleted := false, payee_name := t.merchant.bind RevolutMerchant.name } := by
  rcases t with ⟨ti, tc, tst, tcd, tam, tfe, td, tm⟩
  simp only at hi hd hc ha hf
  subst hi hd hc ha hf
  rfl

theorem convert_ok_inv (t : RevolutTransaction) (a : String) (y : YnabTransaction)
    (h : _convert_revolut_transaction_to_ynab t a = Except.ok y) :
    t.id = some y.id ∧ t.description = some y.memo ∧ t.createdDate = some y.date ∧
    y.import_id = y.id ∧ y.account_id = a ∧ y.cleared = "uncleared" ∧
    y.approved = false ∧ y.deleted = false ∧
    y.payee_name = t.merchant.bind RevolutMerchant.name ∧
    ∃ amt fe, t.amount = some amt ∧ t.fee = some fe ∧ y.amount = (amt - fe) * 10 := by
  rcases t with ⟨ti, tc, tst, tcd, tam, tfe, td, tm⟩
  cases ti <;> cases td <;> cases tcd <;> cases tam <;> cases tfe <;>
    simp_all [_convert_revolut_transaction_to_ynab, dictGet]
  simp [← h]

/-! ## Sample data for concrete evaluations -/

/-- A fully populated eligible transaction (the spec's scenario:
amount 1050, fee 50, currency EUR). -/
def tEUR : RevolutTransaction :=
  { id := some "tx-1", currency := some "EUR", state := some "COMPLETED",
    createdDate := some 1000, amount := some 1050, fee := some 50,
    description := some "Coffee", merchant := some { name := some "Cafe" } }

/-- An eligible transaction with no merchant key. -/
def tPlain : RevolutTransaction :=
  { id := some "tx-2", currency := some "EUR", state := some "COMPLETED",
    createdDate := some 7, amount := some (-30), fee := some 0,
    description := some "Refund", merchant := none }

/-- A transaction in a non-allowed currency. -/
def tUSD : RevolutTransaction :=
  { id := some "tx-3", currency := some "USD", state := some "COMPLETED",
    createdDate := some 8, amount := some 5, fee := some 0,
    description := some "Dollar", merchant := none }

/-- A reverted (temporary) transaction. -/
def tREV : RevolutTransaction :=
  { id := some "tx-4", currency := some "EUR", state := some "REVERTED",
    createdDate := some 9, amount := some 5, fee := some 0,
    description := some "Temp", merchant := none }

/-- What `_convert_revolut_transaction_to_ynab tEUR "acc"` evaluates to. -/
def yEUR : YnabTransaction :=
  { id := "tx-1", import_id := "tx-1", memo := "Coffee", account_id := "acc",
    date := 1000, amount := 10000, cleared := "uncleared", approved := false,
    deleted := false, payee_name := some "Cafe" }

/-- A YNAB environment with two budgets and one account under budget `b1`. -/
def envA : YnabEnv :=
  { budgets := [{ name := "Personal", id := "b1" }, { name := "Shared", id := "b2" }],
    accounts := fun bid => if bid = "b1" then [{ name := "Main", id := "a1" }] else [] }

/-! ## Claims -/

/-- C3: for integer `amount` and `fee` fields, the translated amount is
`(amount - fee) * 10` and has the same sign as `amount - fee`. -/
theorem convert_amount_scaled_and_sign (t : RevolutTransaction) (a : String)
    (amt fe : Int) (y : YnabTransaction)
    (ham : t.amount = some amt) (hfe : t.fee = some fe)
    (h : _convert_revolut_transaction_to_ynab t a = Except.ok y) :
    y.amount = (amt - fe) * 10 ∧ y.amount.sign = (amt - fe).sign := by
  obtain ⟨-, -, -, -, -, -, -, -, -, amt', fe', ham', hfe', hy⟩ := convert_ok_inv t a y h
  rw [ham] at ham'
  rw [hfe] at hfe'
  obtain rfl : amt = amt' := Option.some_inj.mp ham'
  obtain rfl : fe = fe' := Option.some_inj.mp hfe'
  refine ⟨hy, ?_⟩
  rw [hy, Int.sign_mul, show ((10 : Int)).sign = 1 from rfl, mul_one]

/-- C3 witness: at the concrete scenario transaction (amount 1050, fee 50)
the translated amount is `(1050 - 50) * 10 = 10000`, with matching sign. -/
theorem convert_amount_scaled_and_sign_witness :
    yEUR.amount = ((1050 : Int) - 50) * 10 ∧
      yEUR.amount.sign = ((1050 : Int) - 50).sign :=
  convert_amount_scaled_and_sign tEUR "acc" 1050 50 yEUR rfl rfl rfl

/-- C4: every successful translation sets `id` and `import_id` to the source
transaction's identifier, and `cleared`, `approved`, `deleted` to the
constants `"uncleared"`, `false`, `false`. -/
theorem convert_ids_and_constant_fields (t : RevolutTransaction) (a : String)
    (y : YnabTransaction) (h : _convert_revolut_transaction_to_ynab t a = Except.ok y) :
    y.import_id = y.id ∧ t.id = some y.id ∧ y.cleared = "uncleared" ∧
      y.approved = false ∧ y.deleted = false := by
  obtain ⟨hid, -, -, him, -, hcl, hap, hde, -, -⟩ := convert_ok_inv t a y h
  exact ⟨him, hid, hcl, hap, hde⟩

/-- C4 witness: concrete evaluation at `tEUR`. -/
theorem convert_ids_and_constant_fields_witness :
    yEUR.import_id = yEUR.id ∧ tEUR.id = some yEUR.id ∧
      yEUR.cleared = "uncleared" ∧ yEUR.approved = false ∧ yEUR.deleted = false :=
  convert_ids_and_constant_fields tEUR "acc" yEUR rfl

/-- C7 (amended): the translated `date` is the full source timestamp — the
epoch-millisecond value of `datetime.fromtimestamp(createdDate / 1000)` —
with the time-of-day component retained, not truncated. -/
theorem convert_date_full_timestamp (t : RevolutTransaction) (a : String)
    (ms : Int) (y : YnabTransaction) (hc : t.createdDate = some ms)
    (h : _convert_revolut_transaction_to_ynab t a = Except.ok y) :
    y.date = ms := by
  obtain ⟨-, -, hcd, -⟩ := convert_ok_inv t a y h
  rw [hc] at hcd
  exact (Option.some_inj.mp hcd).symm

/-- C7 witness: at `tEUR` (createdDate 1000 ms) the stored date is 1000 ms. -/
theorem convert_date_full_timestamp_witness : yEUR.date = 1000 :=
  convert_date_full_timestamp tEUR "acc" 1000 yEUR rfl rfl

/-- C7 counterexample: at createdDate = 1000 ms (1970-01-01 00:00:01) the
stored date is 1000 ms, whose time-of-day component (1000 ms past midnight)
is not zero — the claimed truncation to a calendar date does not happen. -/
theorem convert_date_keeps_time_of_day :
    (_convert_revolut_transaction_to_ynab tEUR "acc").map YnabTransaction.date =
      Except.ok 1000 ∧ ¬((1000 : Int) % 86400000 = 0) := by
  exact ⟨rfl, by decide⟩

/-- C10: a transaction with all four spec-required fields (`id`, `amount`,
`fee`, `createdDate`) but no `description` still fails translation, with a
`KeyError` on `description`. -/
theorem convert_requires_description (t : RevolutTransaction) (a : String)
    (hi : t.id.isSome) (hc : t.createdDate.isSome) (ha : t.amount.isSome)
    (hf : t.fee.isSome) (hd : t.description = none) :
    _convert_revolut_transaction_to_ynab t a = Except.error "description" := by
  obtain ⟨i, hi'⟩ := Option.isSome_iff_exists.mp hi
  rcases t with ⟨ti, tc, tst, tcd, tam, tfe, td, tm⟩
  simp only at hi' hd
  subst hi' hd
  rfl

/-- C10 witness: concrete transaction with every required field but no
description. -/
theorem convert_requires_description_witness :
    _convert_revolut_transaction_to_ynab
      { id := some "tx-9", currency := some "EUR", state := some "COMPLETED",
        createdDate := some 5, amount := some 10, fee := some 1,
        description := none, merchant := none } "acc" =
      Except.error "description" :=
  convert_requires_description _ "acc" (by decide) (by decide) (by decide)
    (by decide) rfl

/-- `t` lacks the dict key `f` (over the keys the translator reads). -/
def fieldAbsent (t : RevolutTransaction) (f : String) : Prop :=
  (f = "id" ∧ t.id = none) ∨ (f = "description" ∧ t.description = none) ∨
  (f = "createdDate" ∧ t.createdDate = none) ∨ (f = "amount" ∧ t.amount = none) ∨
  (f = "fee" ∧ t.fee = none)

/-- C5 (amended): a transaction lacking a required field fails translation
with an error naming a genuinely missing field (a bare `KeyError`); it does
not carry the transaction's identity.  A missing merchant name is not an
error: translation succeeds and the payee name is taken from the optional
merchant name (absent when the merchant is absent). -/
theorem convert_missing_required_field_fails (t : RevolutTransaction) (a : String) :
    ((t.id = none ∨ t.amount = none ∨ t.fee = none ∨ t.createdDate = none) →
      ∃ f, _convert_revolut_transaction_to_ynab t a = Except.error f ∧ fieldAbsent t f)
    ∧ (∀ i d : String, ∀ cd amt fe : Int, t.id = some i → t.description = some d →
        t.createdDate = some cd → t.amount = some amt → t.fee = some fe →
        ∃ y, _convert_revolut_transaction_to_ynab t a = Except.ok y ∧
          y.payee_name = t.merchant.bind RevolutMerchant.name) := by
  constructor
  · intro hmiss
    rcases t with ⟨ti, tc, tst, tcd, tam, tfe, td, tm⟩
    cases ti with
    | none =>
      exact ⟨"id", rfl, Or.inl ⟨rfl, rfl⟩⟩
    | some i =>
      cases td with
      | none => exact ⟨"description", rfl, Or.inr (Or.inl ⟨rfl, rfl⟩)⟩
      | some d =>
        cases tcd with
        | none =>
          exact ⟨"createdDate", rfl, Or.inr (Or.inr (Or.inl ⟨rfl, rfl⟩))⟩
        | some cd =>
          cases tam with
          | none =>
            exact ⟨"amount", rfl, Or.inr (Or.inr (Or.inr (Or.inl ⟨rfl, rfl⟩)))⟩
          | some amt =>
            cases tfe with
            | none =>
              exact ⟨"fee", rfl, Or.inr (Or.inr (Or.inr (Or.inr ⟨rfl, rfl⟩)))⟩
            | some fe => simp at hmiss
  · intro i d cd amt fe hi hd hc ha hf
    exact ⟨_, convert_ok_fields t a i d cd amt fe hi hd hc ha hf, rfl⟩

/-- C5 counterexample: two transactions that differ in their identifier but
both lack `amount` produce the *same* error value (`KeyError "amount"`), so
the error does not identify the transaction, contradicting the claimed
`TranslationError{transactionId, missingField}` payload. -/
theorem convert_error_lacks_transaction_identity :
    _convert_revolut_transaction_to_ynab
        { id := some "tx-A", currency := some "EUR", state := some "COMPLETED",
          createdDate := some 0, amount := none, fee := some 0,
          description := some "d", merchant := none } "acc" = Except.error "amount" ∧
    _convert_revolut_transaction_to_ynab
        { id := some "tx-B", currency := some "EUR", state := some "COMPLETED",
          createdDate := some 0, amount := none, fee := some 0,
          description := some "d", merchant := none } "acc" = Except.error "amount" ∧
    some "tx-A" ≠ some "tx-B" := by
  refine ⟨rfl, rfl, by decide⟩

/-- C5 witness: a transaction missing `amount` fails with a missing-field
error; a transaction with all required fields but no merchant succeeds with
an absent payee name. -/
theorem convert_missing_required_field_fails_witness :
    (∃ f, _convert_revolut_transaction_to_ynab
        { id := some "tx-A", currency := some "EUR", state := some "COMPLETED",
          createdDate := some 0, amount := none, fee := some 0,
          description := some "d", merchant := none } "acc" = Except.error f ∧
        fieldAbsent
          { id := some "tx-A", currency := some "EUR", state := some "COMPLETED",
            createdDate := some 0, amount := none, fee := some 0,
            description := some "d", merchant := none } f) ∧
    (∃ y, _convert_revolut_transaction_to_ynab tPlain "acc" = Except.ok y ∧
      y.payee_name = none) := by
  constructor
  · exact (convert_missing_required_field_fails _ "acc").1 (Or.inr (Or.inl rfl))
  · obtain ⟨y, hy, hp⟩ :=
      (convert_missing_required_field_fails tPlain "acc").2 "tx-2" "Refund" 7 (-30) 0
        rfl rfl rfl rfl rfl
    exact ⟨y, hy, hp.trans rfl⟩

/-- C2: on a batch whose transactions all carry `currency` and `state` keys,
the filter succeeds, its output is the order-preserving sublist of the input
keeping exactly the transactions whose currency is allowed and whose state
is not `DECLINED`/`FAILED`/`REVERTED`; the currency rule is applied first. -/
theorem filter_subsequence_and_membership (ts : List RevolutTransaction)
    (currency : List String)
    (h : ∀ t ∈ ts, t.currency.isSome ∧ t.state.isSome) :
    filter_revolut_transactions ts currency =
      (filterOpt (currencyTest currency) ts).bind (filterOpt stateTest) ∧
    filter_revolut_transactions ts currency = some (ts.filter (eligible currency)) ∧
    (ts.filter (eligible currency)).Sublist ts ∧
    (∀ t, eligible currency t = true ↔
      ((∃ c, t.currency = some c ∧ c ∈ currency) ∧
        ∃ s, t.state = some s ∧ ¬s ∈ filtered_types)) := by
  have hcur : ∀ t ∈ ts, (currencyTest currency t).isSome := by
    intro t ht
    simpa [currencyTest] using (h t ht).1
  have h1 := filterOpt_eq_some (currencyTest currency) ts hcur
  have hsub1 : ∀ t ∈ ts.filter (fun t => currencyTest currency t == some true),
      (stateTest t).isSome := by
    intro t ht
    simpa [stateTest] using (h t (List.mem_filter.mp ht).1).2
  have h2 := filterOpt_eq_some stateTest _ hsub1
  have hmain : filter_revolut_transactions ts currency =
      some (ts.filter (eligible currency)) := by
    rw [filter_revolut_transactions, h1]
    show filterOpt stateTest (ts.filter fun t => currencyTest currency t == some true) =
      some (ts.filter (eligible currency))
    rw [h2, List.filter_filter]
    congr 1
    apply List.filter_congr
    intro t ht
    simp [eligible, Bool.and_comm]
  refine ⟨?_, hmain, List.filter_sublist ts, ?_⟩
  · rw [filter_revolut_transactions, h1]
    rfl
  · intro t
    cases hc : t.currency <;> cases hs : t.state <;>
      simp [eligible, currencyTest, stateTest, hc, hs, List.contains_iff_exists_mem_beq]

/-- C2 witness: the spec's scenario — of a USD transaction, a reverted one
and an eligible EUR one, only the eligible EUR transaction survives with
`allowed = ["EUR"]`. -/
theorem filter_subsequence_and_membership_witness :
    filter_revolut_transactions [tUSD, tREV, tEUR] ["EUR"] = some [tEUR] ∧
      eligible ["EUR"] tEUR = true := by
  have h := filter_subsequence_and_membership [tUSD, tREV, tEUR] ["EUR"] (by decide)
  constructor
  · rw [h.2.1]; decide
  · exact (h.2.2.2 tEUR).mpr ⟨⟨"EUR", rfl, by decide⟩, ⟨"COMPLETED", rfl, by decide⟩⟩

/-- C8: the filter is idempotent — re-filtering an already-filtered batch
returns it unchanged. -/
theorem filter_idempotent (ts : List RevolutTransaction) (currency : List String)
    (out : List RevolutTransaction)
    (h : filter_revolut_transactions ts currency = some out) :
    filter_revolut_transactions out currency = some out := by
  rw [filter_revolut_transactions] at h
  cases h1 : filterOpt (currencyTest currency) ts with
  | none => rw [h1] at h; cases h
  | some ts1 =>
    rw [h1] at h
    obtain ⟨hall1, hts1⟩ := filterOpt_some_inv _ _ _ h1
    obtain ⟨hall2, hout⟩ := filterOpt_some_inv _ _ _ h
    have hmemc : ∀ t ∈ out, currencyTest currency t = some true := by
      intro t ht
      rw [hout] at ht
      have ht1 := (List.mem_filter.mp ht).1
      rw [hts1] at ht1
      simpa using (List.mem_filter.mp ht1).2
    have hmems : ∀ t ∈ out, stateTest t = some true := by
      intro t ht
      rw [hout] at ht
      simpa using (List.mem_filter.mp ht).2
    have hself1 : out.filter (fun t => currencyTest currency t == some true) = out :=
      List.filter_eq_self.mpr (fun t ht => by rw [hmemc t ht]; rfl)
    have hself2 : out.filter (fun t => stateTest t == some true) = out :=
      List.filter_eq_self.mpr (fun t ht => by rw [hmems t ht]; rfl)
    rw [filter_revolut_transactions,
      filterOpt_eq_some _ out (fun t ht => by rw [hmemc t ht]; rfl), hself1]
    show filterOpt stateTest out = some out
    rw [filterOpt_eq_some _ out (fun t ht => by rw [hmems t ht]; rfl), hself2]

/-- C8 witness: re-filtering the filtered scenario batch is a no-op. -/
theorem filter_idempotent_witness :
    filter_revolut_transactions [tEUR] ["EUR"] = some [tEUR] :=
  filter_idempotent [tUSD, tREV, tEUR] ["EUR"] [tEUR] (by decide)

/-- C9: the name→id mappings resolve every name to the id of the LAST
listed budget/account bearing it — duplicate names are silently collapsed,
and when the name occurs at all the resolution returns an id, with no error
or warning about the ambiguity. -/
theorem mapping_duplicate_names_last_wins (budgets : List YnabBudget)
    (accounts : List YnabAccount) (name : String) :
    lookupDict (get_ynab_budget_id_mapping budgets) name =
      (budgets.reverse.find? (fun b => b.name = name)).map YnabBudget.id ∧
    lookupDict (get_ynab_account_id_mapping accounts) name =
      (accounts.reverse.find? (fun a => a.name = name)).map YnabAccount.id ∧
    ((∃ b ∈ budgets, b.name = name) →
      ∃ i, lookupDict (get_ynab_budget_id_mapping budgets) name = some i) ∧
    ((∃ a ∈ accounts, a.name = name) →
      ∃ i, lookupDict (get_ynab_account_id_mapping accounts) name = some i) := by
  have hb : lookupDict (get_ynab_budget_id_mapping budgets) name =
      (budgets.reverse.find? (fun b => b.name = name)).map YnabBudget.id := by
    rw [get_ynab_budget_id_mapping, lookupDict_dictOfPairs, ← List.map_reverse,
      List.find?_map]
    rw [Option.map_map]
    rfl
  have ha : lookupDict (get_ynab_account_id_mapping accounts) name =
      (accounts.reverse.find? (fun a => a.name = name)).map YnabAccount.id := by
    rw [get_ynab_account_id_mapping, lookupDict_dictOfPairs, ← List.map_reverse,
      List.find?_map]
    rw [Option.map_map]
    rfl
  refine ⟨hb, ha, ?_, ?_⟩
  · rintro ⟨b, hmem, hname⟩
    rw [hb]
    have : (budgets.reverse.find? (fun b => b.name = name)).isSome := by
      rw [List.find?_isSome]
      exact ⟨b, List.mem_reverse.mpr hmem, by simp [hname]⟩
    obtain ⟨x, hx⟩ := Option.isSome_iff_exists.mp this
    exact ⟨x.id, by rw [hx]; rfl⟩
  · rintro ⟨a, hmem, hname⟩
    rw [ha]
    have : (accounts.reverse.find? (fun a => a.name = name)).isSome := by
      rw [List.find?_isSome]
      exact ⟨a, List.mem_reverse.mpr hmem, by simp [hname]⟩
    obtain ⟨x, hx⟩ := Option.isSome_iff_exists.mp this
    exact ⟨x.id, by rw [hx]; rfl⟩

/-- C9 witness: with two budgets both named `B` (ids `id1`, `id2`) the
mapping resolves `B` to `id2`, the id of the last one, and likewise for two
accounts named `A`; resolution succeeds. -/
theorem mapping_duplicate_names_last_wins_witness :
    lookupDict (get_ynab_budget_id_mapping
      [{ name := "B", id := "id1" }, { name := "B", id := "id2" }]) "B" = some "id2" ∧
    lookupDict (get_ynab_account_id_mapping
      [{ name := "A", id := "a1" }, { name := "A", id := "a2" }]) "A" = some "a2" ∧
    (∃ i, lookupDict (get_ynab_budget_id_mapping
      [{ name := "B", id := "id1" }, { name := "B", id := "id2" }]) "B" = some i) := by
  have h := mapping_duplicate_names_last_wins
    [{ name := "B", id := "id1" }, { name := "B", id := "id2" }]
    [{ name := "A", id := "a1" }, { name := "A", id := "a2" }] "B"
  have h' := mapping_duplicate_names_last_wins
    [{ name := "B", id := "id1" }, { name := "B", id := "id2" }]
    [{ name := "A", id := "a1" }, { name := "A", id := "a2" }] "A"
  refine ⟨?_, ?_, ?_⟩
  · rw [h.1]; decide
  · rw [h'.2.1]; decide
  · exact h.2.2.1 ⟨{ name := "B", id := "id1" }, by decide, rfl⟩

/-- C1: when the configured budget name is absent from the budget list the
upload raises `BudgetNotFoundError` whose message carries the requested
name and every available budget name, and likewise `AccountNotFoundError`
for an absent account name; in both cases the returned commit trace is
empty — the failure precedes any bulk-commit call. -/
theorem upload_unknown_name_fails_before_commit (env : YnabEnv)
    (ts : List RevolutTransaction) (budget_name account_name : String) :
    (lookupDict (get_ynab_budget_id_mapping env.budgets) budget_name = none →
      upload_revolut_transactions_to_ynab env ts budget_name account_name =
        ([], some (UploadError.BudgetNotFoundError
          ("Budget named '" ++ budget_name ++ "' not found, available ones: " ++
            names_str ((get_ynab_budget_id_mapping env.budgets).map
              (fun p => p.1)))))) ∧
    (∀ budget_id,
      lookupDict (get_ynab_budget_id_mapping env.budgets) budget_name =
        some budget_id →
      lookupDict (get_ynab_account_id_mapping (env.accounts budget_id))
        account_name = none →
      upload_revolut_transactions_to_ynab env ts budget_name account_name =
        ([], some (UploadError.AccountNotFoundError
          ("YNAB account named '" ++ account_name ++
            "' not found, available ones: " ++
            names_str ((get_ynab_account_id_mapping (env.accounts budget_id)).map
              (fun p => p.1)))))) := by
  constructor
  · intro hb
    rw [upload_revolut_transactions_to_ynab, hb]
  · intro budget_id hb ha
    rw [upload_revolut_transactions_to_ynab, hb]
    show (match lookupDict (get_ynab_account_id_mapping (env.accounts budget_id))
        account_name with
      | none => _
      | some account_id => _) = _
    rw [ha]

/-- C1 witness: requesting budget `Household` against budgets
`Personal`/`Shared` fails with the available names in the message and an
empty commit trace; requesting account `Missing` under `Personal` likewise. -/
theorem upload_unknown_name_fails_before_commit_witness :
    upload_revolut_transactions_to_ynab envA [tEUR] "Household" "Main" =
      ([], some (UploadError.BudgetNotFoundError
        "Budget named 'Household' not found, available ones: 'Personal', 'Shared'")) ∧
    upload_revolut_transactions_to_ynab envA [tEUR] "Personal" "Missing" =
      ([], some (UploadError.AccountNotFoundError
        "YNAB account named 'Missing' not found, available ones: 'Main'")) := by
  constructor
  · rw [(upload_unknown_name_fails_before_commit envA [tEUR] "Household" "Main").1 rfl]
    decide
  · rw [(upload_unknown_name_fails_before_commit envA [tEUR] "Personal"
      "Missing").2 "b1" rfl rfl]
    decide

/-- C6 (amended): with zero transactions left after filtering and
resolvable budget and account names, the upload still performs its single
bulk-commit call, with an empty batch, and reports no error — the code does
not short-circuit before the commit. -/
theorem upload_empty_batch_single_empty_commit (env : YnabEnv)
    (budget_name account_name budget_id account_id : String)
    (hb : lookupDict (get_ynab_budget_id_mapping env.budgets) budget_name =
      some budget_id)
    (ha : lookupDict (get_ynab_account_id_mapping (env.accounts budget_id))
      account_name = some account_id) :
    upload_revolut_transactions_to_ynab env [] budget_name account_name =
      ([{ budget_id := budget_id, transactions := [] }], none) := by
  rw [upload_revolut_transactions_to_ynab, hb]
  show (match lookupDict (get_ynab_account_id_mapping (env.accounts budget_id))
      account_name with
    | none => _
    | some account_id => _) = _
  rw [ha]
  rfl

/-- C6 witness: concrete empty run against `envA` commits once with an
empty batch. -/
theorem upload_empty_batch_single_empty_commit_witness :
    upload_revolut_transactions_to_ynab envA [] "Personal" "Main" =
      ([{ budget_id := "b1", transactions := [] }], none) :=
  upload_empty_batch_single_empty_commit envA "Personal" "Main" "b1" "a1" rfl rfl

/-- C6 counterexample: on the concrete empty run the commit-call trace is
nonempty — `bulk_create_transactions` IS invoked (with the empty batch),
contradicting the claim that it is not invoked. -/
theorem upload_empty_batch_still_commits :
    (upload_revolut_transactions_to_ynab envA [] "Personal" "Main").1 =
      [{ budget_id := "b1", transactions := [] }] ∧
    (upload_revolut_transactions_to_ynab envA [] "Personal" "Main").1 ≠ [] ∧
    (upload_revolut_transactions_to_ynab envA [] "Personal" "Main").2 = none := by
  refine ⟨rfl, by decide, rfl⟩

end RevolutToYnab
